import Mathlib

/-!
OcGuardLib: checked integer arithmetic.

A shallow embedding of `Include/Library/OcGuardLib.h`.  Integer values are
mathematical integers (`Int`); a C integer type is a signedness and a width,
and a conversion to the type keeps the low-order bits and reinterprets them.
An interface that writes through its `Res` pointer is a function returning the
pair `(returned BOOLEAN, value stored in *Res)`.
-/

namespace OcGuardLib

/-! ## Integer types and limits -/

/-- A C integer type of the UEFI data model: signedness and width in bits. -/
structure IntType where
  signed : Bool
  bits : Nat
deriving DecidableEq, Repr

/-- The type `UINT32`. -/
def UINT32 : IntType := ⟨false, 32⟩

/-- The type `INT32`. -/
def INT32 : IntType := ⟨true, 32⟩

/-- The type `UINT64`. -/
def UINT64 : IntType := ⟨false, 64⟩

/-- The type `INT64`. -/
def INT64 : IntType := ⟨true, 64⟩

/-- Header constant `MAX_INT32`, `((INT32)0x7FFFFFFF)`. -/
def MAX_INT32 : Int := 0x7FFFFFFF

/-- Header constant `MAX_UINT32`, `((UINT32)0xFFFFFFFF)`. -/
def MAX_UINT32 : Int := 0xFFFFFFFF

/-- Header constant `MAX_INT64`, `((INT64)0x7FFFFFFFFFFFFFFFULL)`. -/
def MAX_INT64 : Int := 0x7FFFFFFFFFFFFFFF

/-- Header constant `MAX_UINT64`, `((UINT64)0xFFFFFFFFFFFFFFFFULL)`. -/
def MAX_UINT64 : Int := 0xFFFFFFFFFFFFFFFF

/-- Header constant `MIN_INT32`, `(((INT32) -2147483647) - 1)`. -/
def MIN_INT32 : Int := -2147483647 - 1

/-- Header constant `MIN_INT64`, `(((INT64) -9223372036854775807LL) - 1)`. -/
def MIN_INT64 : Int := -9223372036854775807 - 1

/-- Smallest value of the type. -/
def IntType.minValue (T : IntType) : Int :=
  if T.signed then -(2 ^ (T.bits - 1)) else 0

/-- Largest value of the type. -/
def IntType.maxValue (T : IntType) : Int :=
  if T.signed then 2 ^ (T.bits - 1) - 1 else 2 ^ T.bits - 1

/-- The value `x` is representable in the type. -/
def IntType.inRange (T : IntType) (x : Int) : Prop :=
  T.minValue ≤ x ∧ x ≤ T.maxValue

instance (T : IntType) (x : Int) : Decidable (T.inRange x) :=
  inferInstanceAs (Decidable (_ ∧ _))

/-- The C conversion `(T)(x)`: keep the low-order `bits` bits of `x` and read
them back in the type, as two's complement when the type is signed. -/
def IntType.cast (T : IntType) (x : Int) : Int :=
  let low := x % 2 ^ T.bits
  if T.signed && decide (2 ^ (T.bits - 1) ≤ low) then low - 2 ^ T.bits else low

/-! ## Compiler builtins -/

/-- Modelled from the spec: the compiler builtin `__builtin_add_overflow` is
not defined in the repository.  Following the interface comment of the header
and the primitive contract of the spec, it adds the operands in infinite
precision, stores the sum converted to the result type `T`, and returns FALSE
when the stored result is equal to the infinite precision result, otherwise
TRUE. -/
def builtin_add_overflow (T : IntType) (a b : Int) : Bool × Int :=
  let stored := T.cast (a + b)
  (decide (stored ≠ a + b), stored)

/-- Modelled from the spec: the compiler builtin `__builtin_sub_overflow` is
not defined in the repository.  It subtracts the second operand from the first
in infinite precision, stores the difference converted to the result type `T`,
and returns FALSE when the stored result is equal to the infinite precision
result, otherwise TRUE. -/
def builtin_sub_overflow (T : IntType) (a b : Int) : Bool × Int :=
  let stored := T.cast (a - b)
  (decide (stored ≠ a - b), stored)

/-- Modelled from the spec: the compiler builtin `__builtin_mul_overflow` is
not defined in the repository.  It multiplies the operands in infinite
precision, stores the product converted to the result type `T`, and returns
FALSE when the stored result is equal to the infinite precision result,
otherwise TRUE. -/
def builtin_mul_overflow (T : IntType) (a b : Int) : Bool × Int :=
  let stored := T.cast (a * b)
  (decide (stored ≠ a * b), stored)

/-! ## Primitive interfaces (type-generic checkers)

The fixed-width macros are embedded from the branch of the header in which the
type-generic checkers are available.  In the other branch the same macros name
the checkers for `unsigned`, `int`, `unsigned long long` and `long long`, whose
sizes the header asserts to be 4 and 8 bytes. -/

/-- Macro `OcOverflowAddU32(A, B, Res)`. -/
def OcOverflowAddU32 (A B : Int) : Bool × Int :=
  builtin_add_overflow UINT32 (UINT32.cast A) (UINT32.cast B)

/-- Macro `OcOverflowSubU32(A, B, Res)`. -/
def OcOverflowSubU32 (A B : Int) : Bool × Int :=
  builtin_sub_overflow UINT32 (UINT32.cast A) (UINT32.cast B)

/-- Macro `OcOverflowMulU32(A, B, Res)`. -/
def OcOverflowMulU32 (A B : Int) : Bool × Int :=
  builtin_mul_overflow UINT32 (UINT32.cast A) (UINT32.cast B)

/-- Macro `OcOverflowAddS32(A, B, Res)`. -/
def OcOverflowAddS32 (A B : Int) : Bool × Int :=
  builtin_add_overflow INT32 (INT32.cast A) (INT32.cast B)

/-- Macro `OcOverflowSubS32(A, B, Res)`. -/
def OcOverflowSubS32 (A B : Int) : Bool × Int :=
  builtin_sub_overflow INT32 (INT32.cast A) (INT32.cast B)

/-- Macro `OcOverflowMulS32(A, B, Res)`. -/
def OcOverflowMulS32 (A B : Int) : Bool × Int :=
  builtin_mul_overflow INT32 (INT32.cast A) (INT32.cast B)

/-- Macro `OcOverflowAddU64(A, B, Res)`. -/
def OcOverflowAddU64 (A B : Int) : Bool × Int :=
  builtin_add_overflow UINT64 (UINT64.cast A) (UINT64.cast B)

/-- Macro `OcOverflowSubU64(A, B, Res)`. -/
def OcOverflowSubU64 (A B : Int) : Bool × Int :=
  builtin_sub_overflow UINT64 (UINT64.cast A) (UINT64.cast B)

/-- Macro `OcOverflowMulU64(A, B, Res)`. -/
def OcOverflowMulU64 (A B : Int) : Bool × Int :=
  builtin_mul_overflow UINT64 (UINT64.cast A) (UINT64.cast B)

/-- Macro `OcOverflowAddS64(A, B, Res)`. -/
def OcOverflowAddS64 (A B : Int) : Bool × Int :=
  builtin_add_overflow INT64 (INT64.cast A) (INT64.cast B)

/-- Macro `OcOverflowSubS64(A, B, Res)`. -/
def OcOverflowSubS64 (A B : Int) : Bool × Int :=
  builtin_sub_overflow INT64 (INT64.cast A) (INT64.cast B)

/-- Macro `OcOverflowMulS64(A, B, Res)`. -/
def OcOverflowMulS64 (A B : Int) : Bool × Int :=
  builtin_mul_overflow INT64 (INT64.cast A) (INT64.cast B)

/-! ## Composite interfaces (statement-expression macros) -/

/-- Macro `OcOverflowTriAddU32(A, B, C, Res)`. -/
def OcOverflowTriAddU32 (A B C : Int) : Bool × Int :=
  let OcFirst := OcOverflowAddU32 A B
  let OcTmp := OcFirst.2
  let OcSecond := OcOverflowAddU32 OcTmp C
  (OcFirst.1 || OcSecond.1, OcSecond.2)

/-- Macro `OcOverflowTriMulU32(A, B, C, Res)`. -/
def OcOverflowTriMulU32 (A B C : Int) : Bool × Int :=
  let OcFirst := OcOverflowMulU32 A B
  let OcTmp := OcFirst.2
  let OcSecond := OcOverflowMulU32 OcTmp C
  (OcFirst.1 || OcSecond.1, OcSecond.2)

/-- Macro `OcOverflowAddMulU32(A, B, C, Res)`. -/
def OcOverflowAddMulU32 (A B C : Int) : Bool × Int :=
  let OcFirst := OcOverflowAddU32 A B
  let OcTmp := OcFirst.2
  let OcSecond := OcOverflowMulU32 OcTmp C
  (OcFirst.1 || OcSecond.1, OcSecond.2)

/-- Macro `OcOverflowMulAddU32(A, B, C, Res)`. -/
def OcOverflowMulAddU32 (A B C : Int) : Bool × Int :=
  let OcFirst := OcOverflowMulU32 A B
  let OcTmp := OcFirst.2
  let OcSecond := OcOverflowAddU32 OcTmp C
  (OcFirst.1 || OcSecond.1, OcSecond.2)

/-- Macro `OcOverflowTriAddS32(A, B, C, Res)`. -/
def OcOverflowTriAddS32 (A B C : Int) : Bool × Int :=
  let OcFirst := OcOverflowAddS32 A B
  let OcTmp := OcFirst.2
  let OcSecond := OcOverflowAddS32 OcTmp C
  (OcFirst.1 || OcSecond.1, OcSecond.2)

/-- Macro `OcOverflowTriMulS32(A, B, C, Res)`. -/
def OcOverflowTriMulS32 (A B C : Int) : Bool × Int :=
  let OcFirst := OcOverflowMulS32 A B
  let OcTmp := OcFirst.2
  let OcSecond := OcOverflowMulS32 OcTmp C
  (OcFirst.1 || OcSecond.1, OcSecond.2)

/-- Macro `OcOverflowAddMulS32(A, B, C, Res)`. -/
def OcOverflowAddMulS32 (A B C : Int) : Bool × Int :=
  let OcFirst := OcOverflowAddS32 A B
  let OcTmp := OcFirst.2
  let OcSecond := OcOverflowMulS32 OcTmp C
  (OcFirst.1 || OcSecond.1, OcSecond.2)

/-- Macro `OcOverflowMulAddS32(A, B, C, Res)`. -/
def OcOverflowMulAddS32 (A B C : Int) : Bool × Int :=
  let OcFirst := OcOverflowMulS32 A B
  let OcTmp := OcFirst.2
  let OcSecond := OcOverflowAddS32 OcTmp C
  (OcFirst.1 || OcSecond.1, OcSecond.2)

/-- Macro `OcOverflowTriAddU64(A, B, C, Res)`. -/
def OcOverflowTriAddU64 (A B C : Int) : Bool × Int :=
  let OcFirst := OcOverflowAddU64 A B
  let OcTmp := OcFirst.2
  let OcSecond := OcOverflowAddU64 OcTmp C
  (OcFirst.1 || OcSecond.1, OcSecond.2)

/-- Macro `OcOverflowTriMulU64(A, B, C, Res)`. -/
def OcOverflowTriMulU64 (A B C : Int) : Bool × Int :=
  let OcFirst := OcOverflowMulU64 A B
  let OcTmp := OcFirst.2
  let OcSecond := OcOverflowMulU64 OcTmp C
  (OcFirst.1 || OcSecond.1, OcSecond.2)

/-- Macro `OcOverflowAddMulU64(A, B, C, Res)`. -/
def OcOverflowAddMulU64 (A B C : Int) : Bool × Int :=
  let OcFirst := OcOverflowAddU64 A B
  let OcTmp := OcFirst.2
  let OcSecond := OcOverflowMulU64 OcTmp C
  (OcFirst.1 || OcSecond.1, OcSecond.2)

/-- Macro `OcOverflowMulAddU64(A, B, C, Res)`. -/
def OcOverflowMulAddU64 (A B C : Int) : Bool × Int :=
  let OcFirst := OcOverflowMulU64 A B
  let OcTmp := OcFirst.2
  let OcSecond := OcOverflowAddU64 OcTmp C
  (OcFirst.1 || OcSecond.1, OcSecond.2)

/-- Macro `OcOverflowTriAddS64(A, B, C, Res)`. -/
def OcOverflowTriAddS64 (A B C : Int) : Bool × Int :=
  let OcFirst := OcOverflowAddS64 A B
  let OcTmp := OcFirst.2
  let OcSecond := OcOverflowAddS64 OcTmp C
  (OcFirst.1 || OcSecond.1, OcSecond.2)

/-- Macro `OcOverflowTriMulS64(A, B, C, Res)`. -/
def OcOverflowTriMulS64 (A B C : Int) : Bool × Int :=
  let OcFirst := OcOverflowMulS64 A B
  let OcTmp := OcFirst.2
  let OcSecond := OcOverflowMulS64 OcTmp C
  (OcFirst.1 || OcSecond.1, OcSecond.2)

/-- Macro `OcOverflowAddMulS64(A, B, C, Res)`. -/
def OcOverflowAddMulS64 (A B C : Int) : Bool × Int :=
  let OcFirst := OcOverflowAddS64 A B
  let OcTmp := OcFirst.2
  let OcSecond := OcOverflowMulS64 OcTmp C
  (OcFirst.1 || OcSecond.1, OcSecond.2)

/-- Macro `OcOverflowMulAddS64(A, B, C, Res)`. -/
def OcOverflowMulAddS64 (A B C : Int) : Bool × Int :=
  let OcFirst := OcOverflowMulS64 A B
  let OcTmp := OcFirst.2
  let OcSecond := OcOverflowAddS64 OcTmp C
  (OcFirst.1 || OcSecond.1, OcSecond.2)

/-! ## Native-width interfaces -/

/-- Processor architectures the header names (`MDE_CPU_*`). -/
inductive Cpu where
  | AARCH64
  | X64
  | ARM
  | IA32
deriving DecidableEq, Repr

/-- Modelled from the spec: the declarations of `UINTN` and `INTN` are not in
the repository sources at hand.  The native width in bits is the one the
header asserts per architecture with `VERIFY_SIZE_OF (UINTN, 8)` for AARCH64
and X64 and `VERIFY_SIZE_OF (UINTN, 4)` for ARM and IA32. -/
def Cpu.nativeBits : Cpu → Nat
  | .AARCH64 => 64
  | .X64 => 64
  | .ARM => 32
  | .IA32 => 32

/-- The type `UINTN` of the target. -/
def UINTN (cpu : Cpu) : IntType := ⟨false, cpu.nativeBits⟩

/-- The type `INTN` of the target. -/
def INTN (cpu : Cpu) : IntType := ⟨true, cpu.nativeBits⟩

/-- Build configuration that selects the native-width macros: the processor,
and whether the type-generic checkers `__builtin_*_overflow` are available
(first branch of the header) or the native macros forward to the fixed-width
ones (second branch). -/
structure Target where
  cpu : Cpu
  typeGeneric : Bool
deriving DecidableEq, Repr

/-- Macro `OcOverflowAddUN(A, B, Res)`, in either branch of the header. -/
def OcOverflowAddUN (t : Target) (A B : Int) : Bool × Int :=
  if t.typeGeneric then
    builtin_add_overflow (UINTN t.cpu) ((UINTN t.cpu).cast A) ((UINTN t.cpu).cast B)
  else
    match t.cpu with
    | .AARCH64 => OcOverflowAddU64 A B
    | .X64 => OcOverflowAddU64 A B
    | .ARM => OcOverflowAddU32 A B
    | .IA32 => OcOverflowAddU32 A B

/-- Macro `OcOverflowSubUN(A, B, Res)`, in either branch of the header. -/
def OcOverflowSubUN (t : Target) (A B : Int) : Bool × Int :=
  if t.typeGeneric then
    builtin_sub_overflow (UINTN t.cpu) ((UINTN t.cpu).cast A) ((UINTN t.cpu).cast B)
  else
    match t.cpu with
    | .AARCH64 => OcOverflowSubU64 A B
    | .X64 => OcOverflowSubU64 A B
    | .ARM => OcOverflowSubU32 A B
    | .IA32 => OcOverflowSubU32 A B

/-- Macro `OcOverflowMulUN(A, B, Res)`, in either branch of the header. -/
def OcOverflowMulUN (t : Target) (A B : Int) : Bool × Int :=
  if t.typeGeneric then
    builtin_mul_overflow (UINTN t.cpu) ((UINTN t.cpu).cast A) ((UINTN t.cpu).cast B)
  else
    match t.cpu with
    | .AARCH64 => OcOverflowMulU64 A B
    | .X64 => OcOverflowMulU64 A B
    | .ARM => OcOverflowMulU32 A B
    | .IA32 => OcOverflowMulU32 A B

/-- Macro `OcOverflowAddSN(A, B, Res)`, in either branch of the header. -/
def OcOverflowAddSN (t : Target) (A B : Int) : Bool × Int :=
  if t.typeGeneric then
    builtin_add_overflow (INTN t.cpu) ((INTN t.cpu).cast A) ((INTN t.cpu).cast B)
  else
    match t.cpu with
    | .AARCH64 => OcOverflowAddS64 A B
    | .X64 => OcOverflowAddS64 A B
    | .ARM => OcOverflowAddS32 A B
    | .IA32 => OcOverflowAddS32 A B

/-- Macro `OcOverflowSubSN(A, B, Res)`, in either branch of the header. -/
def OcOverflowSubSN (t : Target) (A B : Int) : Bool × Int :=
  if t.typeGeneric then
    builtin_sub_overflow (INTN t.cpu) ((INTN t.cpu).cast A) ((INTN t.cpu).cast B)
  else
    match t.cpu with
    | .AARCH64 => OcOverflowSubS64 A B
    | .X64 => OcOverflowSubS64 A B
    | .ARM => OcOverflowSubS32 A B
    | .IA32 => OcOverflowSubS32 A B

/-- Macro `OcOverflowMulSN(A, B, Res)`, in either branch of the header. -/
def OcOverflowMulSN (t : Target) (A B : Int) : Bool × Int :=
  if t.typeGeneric then
    builtin_mul_overflow (INTN t.cpu) ((INTN t.cpu).cast A) ((INTN t.cpu).cast B)
  else
    match t.cpu with
    | .AARCH64 => OcOverflowMulS64 A B
    | .X64 => OcOverflowMulS64 A B
    | .ARM => OcOverflowMulS32 A B
    | .IA32 => OcOverflowMulS32 A B

/-- Macro `OcOverflowTriAddUN(A, B, C, Res)`. -/
def OcOverflowTriAddUN (t : Target) (A B C : Int) : Bool × Int :=
  let OcFirst := OcOverflowAddUN t A B
  let OcTmp := OcFirst.2
  let OcSecond := OcOverflowAddUN t OcTmp C
  (OcFirst.1 || OcSecond.1, OcSecond.2)

/-- Macro `OcOverflowTriMulUN(A, B, C, Res)`. -/
def OcOverflowTriMulUN (t : Target) (A B C : Int) : Bool × Int :=
  let OcFirst := OcOverflowMulUN t A B
  let OcTmp := OcFirst.2
  let OcSecond := OcOverflowMulUN t OcTmp C
  (OcFirst.1 || OcSecond.1, OcSecond.2)

/-- Macro `OcOverflowAddMulUN(A, B, C, Res)`. -/
def OcOverflowAddMulUN (t : Target) (A B C : Int) : Bool × Int :=
  let OcFirst := OcOverflowAddUN t A B
  let OcTmp := OcFirst.2
  let OcSecond := OcOverflowMulUN t OcTmp C
  (OcFirst.1 || OcSecond.1, OcSecond.2)

/-- Macro `OcOverflowMulAddUN(A, B, C, Res)`. -/
def OcOverflowMulAddUN (t : Target) (A B C : Int) : Bool × Int :=
  let OcFirst := OcOverflowMulUN t A B
  let OcTmp := OcFirst.2
  let OcSecond := OcOverflowAddUN t OcTmp C
  (OcFirst.1 || OcSecond.1, OcSecond.2)

/-- Macro `OcOverflowTriAddSN(A, B, C, Res)`. -/
def OcOverflowTriAddSN (t : Target) (A B C : Int) : Bool × Int :=
  let OcFirst := OcOverflowAddSN t A B
  let OcTmp := OcFirst.2
  let OcSecond := OcOverflowAddSN t OcTmp C
  (OcFirst.1 || OcSecond.1, OcSecond.2)

/-- Macro `OcOverflowTriMulSN(A, B, C, Res)`. -/
def OcOverflowTriMulSN (t : Target) (A B C : Int) : Bool × Int :=
  let OcFirst := OcOverflowMulSN t A B
  let OcTmp := OcFirst.2
  let OcSecond := OcOverflowMulSN t OcTmp C
  (OcFirst.1 || OcSecond.1, OcSecond.2)

/-- Macro `OcOverflowAddMulSN(A, B, C, Res)`. -/
def OcOverflowAddMulSN (t : Target) (A B C : Int) : Bool × Int :=
  let OcFirst := OcOverflowAddSN t A B
  let OcTmp := OcFirst.2
  let OcSecond := OcOverflowMulSN t OcTmp C
  (OcFirst.1 || OcSecond.1, OcSecond.2)

/-- Macro `OcOverflowMulAddSN(A, B, C, Res)`. -/
def OcOverflowMulAddSN (t : Target) (A B C : Int) : Bool × Int :=
  let OcFirst := OcOverflowMulSN t A B
  let OcTmp := OcFirst.2
  let OcSecond := OcOverflowAddSN t OcTmp C
  (OcFirst.1 || OcSecond.1, OcSecond.2)

/-! ## The catalog -/

/-- The four fixed-width integer kinds of the catalog. -/
inductive Kind where
  | U32
  | S32
  | U64
  | S64
deriving DecidableEq, Repr

/-- The C type of a kind. -/
def Kind.type : Kind → IntType
  | .U32 => UINT32
  | .S32 => INT32
  | .U64 => UINT64
  | .S64 => INT64

/-- Width in bits of a kind. -/
def Kind.width (k : Kind) : Nat := k.type.bits

/-- Whether a kind is signed. -/
def Kind.signed (k : Kind) : Bool := k.type.signed

/-- The primitive operations. -/
inductive PrimOp where
  | Add
  | Sub
  | Mul
deriving DecidableEq, Repr

/-- Infinite-precision value of `A op B`. -/
def PrimOp.exact : PrimOp → Int → Int → Int
  | .Add, a, b => a + b
  | .Sub, a, b => a - b
  | .Mul, a, b => a * b

/-- The primitive interface of a kind and operation. -/
def primitive : Kind → PrimOp → Int → Int → Bool × Int
  | .U32, .Add => OcOverflowAddU32
  | .U32, .Sub => OcOverflowSubU32
  | .U32, .Mul => OcOverflowMulU32
  | .S32, .Add => OcOverflowAddS32
  | .S32, .Sub => OcOverflowSubS32
  | .S32, .Mul => OcOverflowMulS32
  | .U64, .Add => OcOverflowAddU64
  | .U64, .Sub => OcOverflowSubU64
  | .U64, .Mul => OcOverflowMulU64
  | .S64, .Add => OcOverflowAddS64
  | .S64, .Sub => OcOverflowSubS64
  | .S64, .Mul => OcOverflowMulS64

/-- The composite operations. -/
inductive Composite where
  | TriAdd
  | TriMul
  | AddMul
  | MulAdd
deriving DecidableEq, Repr

/-- Operation of the first stage of a composite. -/
def Composite.stage1 : Composite → PrimOp
  | .TriAdd => .Add
  | .TriMul => .Mul
  | .AddMul => .Add
  | .MulAdd => .Mul

/-- Operation of the second stage of a composite. -/
def Composite.stage2 : Composite → PrimOp
  | .TriAdd => .Add
  | .TriMul => .Mul
  | .AddMul => .Mul
  | .MulAdd => .Add

/-- Infinite-precision value of the full expression of a composite:
`A+B+C`, `A*B*C`, `(A+B)*C`, `A*B+C`. -/
def Composite.exact : Composite → Int → Int → Int → Int
  | .TriAdd, a, b, c => a + b + c
  | .TriMul, a, b, c => a * b * c
  | .AddMul, a, b, c => (a + b) * c
  | .MulAdd, a, b, c => a * b + c

/-- The composite interface of a kind and composite operation. -/
def composite : Kind → Composite → Int → Int → Int → Bool × Int
  | .U32, .TriAdd => OcOverflowTriAddU32
  | .U32, .TriMul => OcOverflowTriMulU32
  | .U32, .AddMul => OcOverflowAddMulU32
  | .U32, .MulAdd => OcOverflowMulAddU32
  | .S32, .TriAdd => OcOverflowTriAddS32
  | .S32, .TriMul => OcOverflowTriMulS32
  | .S32, .AddMul => OcOverflowAddMulS32
  | .S32, .MulAdd => OcOverflowMulAddS32
  | .U64, .TriAdd => OcOverflowTriAddU64
  | .U64, .TriMul => OcOverflowTriMulU64
  | .U64, .AddMul => OcOverflowAddMulU64
  | .U64, .MulAdd => OcOverflowMulAddU64
  | .S64, .TriAdd => OcOverflowTriAddS64
  | .S64, .TriMul => OcOverflowTriMulS64
  | .S64, .AddMul => OcOverflowAddMulS64
  | .S64, .MulAdd => OcOverflowMulAddS64

/-- The native-width primitive interface: suffix `SN` when `signed`, else `UN`. -/
def nativePrimitive (t : Target) : Bool → PrimOp → Int → Int → Bool × Int
  | false, .Add => OcOverflowAddUN t
  | false, .Sub => OcOverflowSubUN t
  | false, .Mul => OcOverflowMulUN t
  | true, .Add => OcOverflowAddSN t
  | true, .Sub => OcOverflowSubSN t
  | true, .Mul => OcOverflowMulSN t

/-- The native-width composite interface: suffix `SN` when `signed`, else `UN`. -/
def nativeComposite (t : Target) : Bool → Composite → Int → Int → Int → Bool × Int
  | false, .TriAdd => OcOverflowTriAddUN t
  | false, .TriMul => OcOverflowTriMulUN t
  | false, .AddMul => OcOverflowAddMulUN t
  | false, .MulAdd => OcOverflowMulAddUN t
  | true, .TriAdd => OcOverflowTriAddSN t
  | true, .TriMul => OcOverflowTriMulSN t
  | true, .AddMul => OcOverflowAddMulSN t
  | true, .MulAdd => OcOverflowMulAddSN t

/-- The explicit 64-bit kind of a signedness. -/
def kind64 : Bool → Kind
  | false => .U64
  | true => .S64

/-- The explicit 32-bit kind of a signedness. -/
def kind32 : Bool → Kind
  | false => .U32
  | true => .S32

/-- The two-call manual sequence the spec describes for a composite: stage 1
on `A`, `B` into an intermediate `T` of the same kind, stage 2 on `T`, `C`.
It returns the two stage flags and the result stored by stage 2. -/
def manualSequence (k : Kind) (c : Composite) (A B C : Int) : Bool × Bool × Int :=
  let stage1 := primitive k c.stage1 A B
  let T := stage1.2
  let stage2 := primitive k c.stage2 T C
  (stage1.1, stage2.1, stage2.2)

/-! ## Pointer alignment checking -/

/-- The value of `sizeof (UINTN)` in bytes, a byte being 8 bits. -/
def sizeofUINTN (cpu : Cpu) : Nat := cpu.nativeBits / 8

/-- Bitwise AND of two `UINTN` values, `X & Y`. -/
def andUINTN (X Y : Int) : Int := ((X.toNat &&& Y.toNat : Nat) : Int)

/-- Binary operators of C that may occur in the text of a macro argument. -/
inductive BinOp where
  | mul
  | add
  | sub
  | shl
  | shr
  | band
  | bxor
  | bor
deriving DecidableEq, Repr

/-- Whether the operator binds at least as tightly as the binary minus: the
multiplicative and additive operators do, the shifts and the bitwise operators
do not. -/
def BinOp.tight : BinOp → Bool
  | .mul => true
  | .add => true
  | .sub => true
  | .shl => false
  | .shr => false
  | .band => false
  | .bxor => false
  | .bor => false

/-- Value of `a op b` on integers, while no intermediate value leaves its C
type. -/
def BinOp.eval : BinOp → Int → Int → Int
  | .mul, a, b => a * b
  | .add, a, b => a + b
  | .sub, a, b => a - b
  | .shl, a, b => a * 2 ^ b.toNat
  | .shr, a, b => a / 2 ^ b.toNat
  | .band, a, b => Int.land a b
  | .bxor, a, b => Int.xor a b
  | .bor, a, b => Int.lor a b

/-- The parse tree of the text of a macro argument: a constant or identifier
with its value, a parenthesised expression, `l op r`, or `c ? t : f`. -/
inductive CExpr where
  | const (v : Int)
  | paren (e : CExpr)
  | bin (op : BinOp) (l r : CExpr)
  | cond (c t f : CExpr)

/-- Value of an expression. -/
def CExpr.eval : CExpr → Int
  | .const v => v
  | .paren e => e.eval
  | .bin op l r => op.eval l.eval r.eval
  | .cond c t f => if c.eval ≠ 0 then t.eval else f.eval

/-- Whether the expression as a whole binds at least as tightly as the binary
minus. -/
def CExpr.tight : CExpr → Bool
  | .const _ => true
  | .paren _ => true
  | .bin op _ _ => op.tight
  | .cond _ _ _ => false

/-- The parse tree of the text `Align-1` that the body of `OC_POT_ALIGNED`
writes with the parameter `Align` not parenthesised: under an operator that
binds less tightly than minus, and under `? :`, the `-1` goes to the last
operand. -/
def CExpr.minusOne : CExpr → CExpr
  | .const v => .bin .sub (.const v) (.const 1)
  | .paren e => .bin .sub (.paren e) (.const 1)
  | .bin op l r => if op.tight then .bin .sub (.bin op l r) (.const 1) else .bin op l r.minusOne
  | .cond c t f => .cond c t f.minusOne

/-- Macro `OC_POT_ALIGNED(Align, Ptr)`,
`(0ULL == (((UINTN) (Ptr)) & (Align-1)))`: `Align` is the text of the argument,
substituted as it stands, of a type no wider than `UINTN`, so that the value
of `Align-1` is converted to `UINTN` for the AND. -/
def OC_POT_ALIGNED (cpu : Cpu) (Align : CExpr) (Ptr : Int) : Bool :=
  0 == andUINTN ((UINTN cpu).cast Ptr) ((UINTN cpu).cast Align.minusOne.eval)

/-- The mask of `OC_ALIGNED` and `OC_TYPE_ALIGNED` for a type of size `size`,
`(sizeof (Type) > sizeof(UINTN) ? (sizeof (UINTN) - 1U) : (sizeof (Type) - 1U))`,
computed in the unsigned native-width type of `sizeof`. -/
def typeAlignMask (cpu : Cpu) (size : Nat) : Int :=
  if size > sizeofUINTN cpu then (UINTN cpu).cast ((sizeofUINTN cpu : Int) - 1)
  else (UINTN cpu).cast ((size : Int) - 1)

/-- Macro `OC_TYPE_ALIGNED(Type, Ptr)`; `sizeofType` is `sizeof (Type)`. -/
def OC_TYPE_ALIGNED (cpu : Cpu) (sizeofType : Nat) (Ptr : Int) : Bool :=
  0 == andUINTN ((UINTN cpu).cast Ptr) (typeAlignMask cpu sizeofType)

/-- Macro `OC_ALIGNED(TypedPtr)`; `sizeofPointee` is `sizeof (*(TypedPtr))`. -/
def OC_ALIGNED (cpu : Cpu) (sizeofPointee : Nat) (TypedPtr : Int) : Bool :=
  0 == andUINTN ((UINTN cpu).cast TypedPtr) (typeAlignMask cpu sizeofPointee)

/-! ## Conversion lemmas -/

/-- A conversion leaves a value unchanged exactly when the value is in range. -/
theorem cast_eq_self_iff (k : Kind) (x : Int) :
    k.type.cast x = x ↔ k.type.inRange x := by
  cases k <;>
    simp [Kind.type, UINT32, INT32, UINT64, INT64, IntType.cast, IntType.inRange,
      IntType.minValue, IntType.maxValue] <;>
    omega

/-- A converted value is in range. -/
theorem cast_inRange (k : Kind) (x : Int) : k.type.inRange (k.type.cast x) := by
  cases k <;>
    simp [Kind.type, UINT32, INT32, UINT64, INT64, IntType.cast, IntType.inRange,
      IntType.minValue, IntType.maxValue] <;>
    omega

/-- A conversion depends only on the residue modulo `2^width`. -/
theorem cast_congr (k : Kind) (x y : Int) (h : x % 2 ^ k.width = y % 2 ^ k.width) :
    k.type.cast x = k.type.cast y := by
  cases k <;>
    simp [Kind.type, Kind.width, UINT32, INT32, UINT64, INT64, IntType.cast] at h ⊢ <;>
    simp [h]

/-- A conversion keeps the residue modulo `2^width`. -/
theorem cast_emod (k : Kind) (x : Int) :
    k.type.cast x % 2 ^ k.width = x % 2 ^ k.width := by
  cases k <;>
    simp [Kind.type, Kind.width, UINT32, INT32, UINT64, INT64, IntType.cast] <;>
    omega

/-- For an unsigned kind a conversion is the reduction modulo `2^width`. -/
theorem cast_unsigned (k : Kind) (hk : k.signed = false) (x : Int) :
    k.type.cast x = x % 2 ^ k.width := by
  cases k <;> simp [Kind.signed, Kind.type, UINT32, INT32, UINT64, INT64] at hk <;>
    simp [Kind.type, Kind.width, UINT32, UINT64, IntType.cast]

/-- Every primitive converts its operands, computes in infinite precision,
stores the converted value and reports whether the stored value differs. -/
theorem primitive_eq (k : Kind) (op : PrimOp) (A B : Int) :
    primitive k op A B =
      (decide (k.type.cast (op.exact (k.type.cast A) (k.type.cast B)) ≠
          op.exact (k.type.cast A) (k.type.cast B)),
        k.type.cast (op.exact (k.type.cast A) (k.type.cast B))) := by
  cases k <;> cases op <;> rfl

/-- On operands of the kind, a primitive works on the operands themselves. -/
theorem primitive_eq_of_inRange (k : Kind) (op : PrimOp) (A B : Int)
    (hA : k.type.inRange A) (hB : k.type.inRange B) :
    primitive k op A B =
      (decide (k.type.cast (op.exact A B) ≠ op.exact A B), k.type.cast (op.exact A B)) := by
  rw [primitive_eq, (cast_eq_self_iff k A).2 hA, (cast_eq_self_iff k B).2 hB]

/-- The flag of a primitive on operands of the kind is FALSE exactly when the
infinite-precision value is in range. -/
theorem primitive_flag_false_iff (k : Kind) (op : PrimOp) (A B : Int)
    (hA : k.type.inRange A) (hB : k.type.inRange B) :
    (primitive k op A B).1 = false ↔ k.type.inRange (op.exact A B) := by
  rw [primitive_eq_of_inRange k op A B hA hB]
  simp [cast_eq_self_iff]

/-- The value a primitive stores on operands of the kind. -/
theorem primitive_stored (k : Kind) (op : PrimOp) (A B : Int)
    (hA : k.type.inRange A) (hB : k.type.inRange B) :
    (primitive k op A B).2 = k.type.cast (op.exact A B) := by
  rw [primitive_eq_of_inRange k op A B hA hB]

/-- The value a primitive stores is always a value of the kind. -/
theorem primitive_stored_inRange (k : Kind) (op : PrimOp) (A B : Int) :
    k.type.inRange (primitive k op A B).2 := by
  rw [primitive_eq]
  exact cast_inRange k _

/-! ## Primitive contract -/

/-- C1: for every primitive (add, sub, mul) of every kind and all operands of
the kind, the returned flag is FALSE if and only if the infinite-precision
value of `A op B` lies in the range of the destination type, and whenever the
flag is FALSE the stored result is that infinite-precision value. -/
theorem primitive_false_iff_fits (k : Kind) (op : PrimOp) (A B : Int)
    (hA : k.type.inRange A) (hB : k.type.inRange B) :
    ((primitive k op A B).1 = false ↔
        k.type.minValue ≤ op.exact A B ∧ op.exact A B ≤ k.type.maxValue) ∧
      ((primitive k op A B).1 = false → (primitive k op A B).2 = op.exact A B) := by
  refine ⟨primitive_flag_false_iff k op A B hA hB, fun h => ?_⟩
  rw [primitive_stored k op A B hA hB]
  exact (cast_eq_self_iff k _).2 ((primitive_flag_false_iff k op A B hA hB).1 h)

/-- Instance of C1: `OcOverflowSubS64 (MIN_INT64 + 5) 5` stays in range. -/
theorem primitive_false_iff_fits_witness :
    (Kind.S64.type.inRange (MIN_INT64 + 5) ∧ Kind.S64.type.inRange 5) ∧
      (((primitive .S64 .Sub (MIN_INT64 + 5) 5).1 = false ↔
          Kind.S64.type.minValue ≤ PrimOp.Sub.exact (MIN_INT64 + 5) 5 ∧
            PrimOp.Sub.exact (MIN_INT64 + 5) 5 ≤ Kind.S64.type.maxValue) ∧
        ((primitive .S64 .Sub (MIN_INT64 + 5) 5).1 = false →
          (primitive .S64 .Sub (MIN_INT64 + 5) 5).2 = PrimOp.Sub.exact (MIN_INT64 + 5) 5)) :=
  ⟨⟨by decide, by decide⟩,
    primitive_false_iff_fits .S64 .Sub (MIN_INT64 + 5) 5 (by decide) (by decide)⟩

/-- C2: for every unsigned primitive (U32 and U64; add, sub, mul) and all
operands of the kind, the stored result is the infinite-precision value of
`A op B` reduced modulo `2^width`, whatever the returned flag; in particular
`OcOverflowAddU32 (0xFFFFFFFF, 1)` returns TRUE and stores 0, and
`OcOverflowMulU64 (0x100000000, 0x100000000)` returns TRUE and stores 0. -/
theorem unsigned_primitive_stores_mod (k : Kind) (op : PrimOp) (A B : Int)
    (hk : k.signed = false) (hA : k.type.inRange A) (hB : k.type.inRange B) :
    (primitive k op A B).2 = op.exact A B % 2 ^ k.width ∧
      OcOverflowAddU32 0xFFFFFFFF 1 = (true, 0) ∧
      OcOverflowMulU64 0x100000000 0x100000000 = (true, 0) := by
  refine ⟨?_, by decide, by decide⟩
  rw [primitive_stored k op A B hA hB, cast_unsigned k hk]

/-- Instance of C2: `OcOverflowSubU32 (3, 5)` stores `(3 - 5) mod 2^32`. -/
theorem unsigned_primitive_stores_mod_witness :
    (Kind.U32.signed = false ∧ Kind.U32.type.inRange 3 ∧ Kind.U32.type.inRange 5) ∧
      ((primitive .U32 .Sub 3 5).2 = PrimOp.Sub.exact 3 5 % 2 ^ Kind.U32.width ∧
        OcOverflowAddU32 0xFFFFFFFF 1 = (true, 0) ∧
        OcOverflowMulU64 0x100000000 0x100000000 = (true, 0)) :=
  ⟨⟨by decide, by decide, by decide⟩,
    unsigned_primitive_stores_mod .U32 .Sub 3 5 (by decide) (by decide) (by decide)⟩

/-- C3: for every signed primitive (S32 and S64; add, sub, mul) and all
operands of the kind, the stored result is the two's-complement wraparound of
the infinite-precision value of `A op B`: it lies in
`[-2^(width-1), 2^(width-1)-1]`, is congruent to that value modulo `2^width`,
and is the only such value, whatever the returned flag; in particular
`OcOverflowAddS32 (0x7FFFFFFF, 1)` returns TRUE and stores `MIN_INT32`, whose
bit pattern is `0x80000000`. -/
theorem signed_primitive_stores_wraparound (k : Kind) (op : PrimOp) (A B : Int)
    (hk : k.signed = true) (hA : k.type.inRange A) (hB : k.type.inRange B) :
    (-(2 ^ (k.width - 1)) ≤ (primitive k op A B).2 ∧
        (primitive k op A B).2 ≤ 2 ^ (k.width - 1) - 1 ∧
        (primitive k op A B).2 % 2 ^ k.width = op.exact A B % 2 ^ k.width ∧
        ∀ v : Int, -(2 ^ (k.width - 1)) ≤ v → v ≤ 2 ^ (k.width - 1) - 1 →
          v % 2 ^ k.width = op.exact A B % 2 ^ k.width → v = (primitive k op A B).2) ∧
      OcOverflowAddS32 0x7FFFFFFF 1 = (true, MIN_INT32) ∧
      MIN_INT32 % 2 ^ 32 = 0x80000000 := by
  refine ⟨?_, by decide, by decide⟩
  rw [primitive_stored k op A B hA hB]
  have hr := cast_inRange k (op.exact A B)
  have hm := cast_emod k (op.exact A B)
  generalize op.exact A B = e at hr hm ⊢
  generalize k.type.cast e = r at hr hm ⊢
  cases k <;> simp [Kind.signed, Kind.type, UINT32, INT32, UINT64, INT64] at hk <;>
    simp [Kind.type, Kind.width, INT32, INT64, IntType.inRange, IntType.minValue,
      IntType.maxValue] at hr hm ⊢ <;>
    refine ⟨by omega, by omega, hm, fun v h1 h2 h3 => by omega⟩

/-- Instance of C3: `OcOverflowMulS32 (MAX_INT32, 2)` wraps around. -/
theorem signed_primitive_stores_wraparound_witness :
    (Kind.S32.signed = true ∧ Kind.S32.type.inRange MAX_INT32 ∧ Kind.S32.type.inRange 2) ∧
      ((-(2 ^ (Kind.S32.width - 1)) ≤ (primitive .S32 .Mul MAX_INT32 2).2 ∧
          (primitive .S32 .Mul MAX_INT32 2).2 ≤ 2 ^ (Kind.S32.width - 1) - 1 ∧
          (primitive .S32 .Mul MAX_INT32 2).2 % 2 ^ Kind.S32.width =
            PrimOp.Mul.exact MAX_INT32 2 % 2 ^ Kind.S32.width ∧
          ∀ v : Int, -(2 ^ (Kind.S32.width - 1)) ≤ v → v ≤ 2 ^ (Kind.S32.width - 1) - 1 →
            v % 2 ^ Kind.S32.width = PrimOp.Mul.exact MAX_INT32 2 % 2 ^ Kind.S32.width →
            v = (primitive .S32 .Mul MAX_INT32 2).2) ∧
        OcOverflowAddS32 0x7FFFFFFF 1 = (true, MIN_INT32) ∧
        MIN_INT32 % 2 ^ 32 = 0x80000000) :=
  ⟨⟨by decide, by decide, by decide⟩,
    signed_primitive_stores_wraparound .S32 .Mul MAX_INT32 2 (by decide) (by decide)
      (by decide)⟩

/-! ## Composite contract -/

/-- Every composite is its two primitive stages chained through the stored
intermediate, the flags combined with OR. -/
theorem composite_eq (k : Kind) (c : Composite) (A B C : Int) :
    composite k c A B C =
      ((primitive k c.stage1 A B).1 || (primitive k c.stage2 (primitive k c.stage1 A B).2 C).1,
        (primitive k c.stage2 (primitive k c.stage1 A B).2 C).2) := by
  cases k <;> cases c <;> rfl

/-- The full expression is stage 2 applied to the stage-1 value. -/
theorem Composite.exact_eq (c : Composite) (A B C : Int) :
    c.exact A B C = c.stage2.exact (c.stage1.exact A B) C := by
  cases c <;> rfl

/-- Stage 2 on the wrapped intermediate is congruent to the full expression. -/
theorem stage2_emod (k : Kind) (op : PrimOp) (e C : Int) :
    op.exact (k.type.cast e) C % 2 ^ k.width = op.exact e C % 2 ^ k.width := by
  have h : k.type.cast e ≡ e [ZMOD 2 ^ k.width] := cast_emod k e
  cases op
  · exact h.add_right C
  · exact h.sub_right C
  · exact h.mul_right C

/-- The value a composite stores on operands of the kind is the converted
infinite-precision value of the full expression. -/
theorem composite_stored (k : Kind) (c : Composite) (A B C : Int)
    (hA : k.type.inRange A) (hB : k.type.inRange B) (hC : k.type.inRange C) :
    (composite k c A B C).2 = k.type.cast (c.exact A B C) := by
  rw [composite_eq]
  simp only []
  rw [primitive_stored k c.stage2 _ C (primitive_stored_inRange k c.stage1 A B) hC,
    primitive_stored k c.stage1 A B hA hB, Composite.exact_eq]
  exact cast_congr k _ _ (stage2_emod k c.stage2 _ C)

/-- The flag of a composite on operands of the kind is FALSE exactly when the
stage-1 value and the value of the full expression are both in range. -/
theorem composite_flag_false_iff (k : Kind) (c : Composite) (A B C : Int)
    (hA : k.type.inRange A) (hB : k.type.inRange B) (hC : k.type.inRange C) :
    (composite k c A B C).1 = false ↔
      k.type.inRange (c.stage1.exact A B) ∧ k.type.inRange (c.exact A B C) := by
  rw [composite_eq]
  simp only [Bool.or_eq_false_iff]
  rw [primitive_flag_false_iff k c.stage2 _ C (primitive_stored_inRange k c.stage1 A B) hC,
    primitive_flag_false_iff k c.stage1 A B hA hB, primitive_stored k c.stage1 A B hA hB,
    Composite.exact_eq]
  constructor
  · rintro ⟨h1, h2⟩
    rw [(cast_eq_self_iff k _).2 h1] at h2
    exact ⟨h1, h2⟩
  · rintro ⟨h1, h2⟩
    rw [(cast_eq_self_iff k _).2 h1]
    exact ⟨h1, h2⟩

/-- C4: for every composite of every kind and all `A`, `B`, `C`, the returned
flag is the logical OR of the two stage flags of the manual two-call sequence
(stage 1 on `A`, `B` into an intermediate of the same kind, stage 2 on the
intermediate and `C`, the stages being add/add, mul/mul, add/mul, mul/add),
and the stored result is the one stage 2 of that sequence stores. -/
theorem composite_refines_manualSequence (k : Kind) (c : Composite) (A B C : Int) :
    (composite k c A B C).1 =
        ((manualSequence k c A B C).1 || (manualSequence k c A B C).2.1) ∧
      (composite k c A B C).2 = (manualSequence k c A B C).2.2 ∧
      (Composite.TriAdd.stage1, Composite.TriAdd.stage2) = (PrimOp.Add, PrimOp.Add) ∧
      (Composite.TriMul.stage1, Composite.TriMul.stage2) = (PrimOp.Mul, PrimOp.Mul) ∧
      (Composite.AddMul.stage1, Composite.AddMul.stage2) = (PrimOp.Add, PrimOp.Mul) ∧
      (Composite.MulAdd.stage1, Composite.MulAdd.stage2) = (PrimOp.Mul, PrimOp.Add) := by
  refine ⟨?_, ?_, rfl, rfl, rfl, rfl⟩ <;> cases k <;> cases c <;> rfl

/-- C5: for every composite of every kind and all operands of the kind,
whatever the returned flag and also when stage 1 overflows, the stored result
is the infinite-precision value of the full expression (`A+B+C`, `A*B*C`,
`(A+B)*C`, `A*B+C`) reduced modulo `2^width` for an unsigned kind, and its
two's-complement wraparound (in `[-2^(width-1), 2^(width-1)-1]` and congruent
modulo `2^width`) for a signed kind. -/
theorem composite_stores_wrapped (k : Kind) (c : Composite) (A B C : Int)
    (hA : k.type.inRange A) (hB : k.type.inRange B) (hC : k.type.inRange C) :
    (k.signed = false → (composite k c A B C).2 = c.exact A B C % 2 ^ k.width) ∧
      (k.signed = true →
        -(2 ^ (k.width - 1)) ≤ (composite k c A B C).2 ∧
          (composite k c A B C).2 ≤ 2 ^ (k.width - 1) - 1 ∧
          (composite k c A B C).2 % 2 ^ k.width = c.exact A B C % 2 ^ k.width) := by
  rw [composite_stored k c A B C hA hB hC]
  refine ⟨fun hk => cast_unsigned k hk _, fun hk => ?_⟩
  have hr := cast_inRange k (c.exact A B C)
  refine ⟨?_, ?_, cast_emod k _⟩ <;>
    cases k <;> simp [Kind.signed, Kind.type, UINT32, INT32, UINT64, INT64] at hk <;>
    simp [Kind.type, Kind.width, INT32, INT64, IntType.inRange, IntType.minValue,
      IntType.maxValue] at hr ⊢ <;>
    omega

/-- Instance of C5: `OcOverflowTriMulS32 (0x10000, 0x10000, 3)`, where stage 1
overflows. -/
theorem composite_stores_wrapped_witness :
    (Kind.S32.type.inRange 0x10000 ∧ Kind.S32.type.inRange 0x10000 ∧
        Kind.S32.type.inRange 3) ∧
      ((Kind.S32.signed = false →
          (composite .S32 .TriMul 0x10000 0x10000 3).2 =
            Composite.TriMul.exact 0x10000 0x10000 3 % 2 ^ Kind.S32.width) ∧
        (Kind.S32.signed = true →
          -(2 ^ (Kind.S32.width - 1)) ≤ (composite .S32 .TriMul 0x10000 0x10000 3).2 ∧
            (composite .S32 .TriMul 0x10000 0x10000 3).2 ≤ 2 ^ (Kind.S32.width - 1) - 1 ∧
            (composite .S32 .TriMul 0x10000 0x10000 3).2 % 2 ^ Kind.S32.width =
              Composite.TriMul.exact 0x10000 0x10000 3 % 2 ^ Kind.S32.width)) :=
  ⟨⟨by decide, by decide, by decide⟩,
    composite_stores_wrapped .S32 .TriMul 0x10000 0x10000 3 (by decide) (by decide)
      (by decide)⟩

/-- C6: for every composite of every kind and all operands of the kind, the
returned flag is FALSE if and only if both the infinite-precision stage-1
value (`A+B` or `A*B`) and the infinite-precision value of the full expression
are representable in the destination type, and whenever the flag is FALSE the
stored result is the exact value of the full expression; in particular
`TriAdd (1, 2, 3)` returns FALSE and stores 6 for every kind. -/
theorem composite_false_iff_both_fit (k : Kind) (c : Composite) (A B C : Int)
    (hA : k.type.inRange A) (hB : k.type.inRange B) (hC : k.type.inRange C) :
    ((composite k c A B C).1 = false ↔
        (k.type.minValue ≤ c.stage1.exact A B ∧ c.stage1.exact A B ≤ k.type.maxValue) ∧
          (k.type.minValue ≤ c.exact A B C ∧ c.exact A B C ≤ k.type.maxValue)) ∧
      ((composite k c A B C).1 = false → (composite k c A B C).2 = c.exact A B C) ∧
      ∀ j : Kind, composite j .TriAdd 1 2 3 = (false, 6) := by
  refine ⟨composite_flag_false_iff k c A B C hA hB hC, fun h => ?_, fun j => ?_⟩
  · rw [composite_stored k c A B C hA hB hC]
    exact (cast_eq_self_iff k _).2 ((composite_flag_false_iff k c A B C hA hB hC).1 h).2
  · cases j <;> decide

/-- Instance of C6: `OcOverflowAddMulU64 (MAX_UINT64, 1, 0)`, where only
stage 1 leaves the range. -/
theorem composite_false_iff_both_fit_witness :
    (Kind.U64.type.inRange MAX_UINT64 ∧ Kind.U64.type.inRange 1 ∧ Kind.U64.type.inRange 0) ∧
      (((composite .U64 .AddMul MAX_UINT64 1 0).1 = false ↔
          (Kind.U64.type.minValue ≤ Composite.AddMul.stage1.exact MAX_UINT64 1 ∧
              Composite.AddMul.stage1.exact MAX_UINT64 1 ≤ Kind.U64.type.maxValue) ∧
            (Kind.U64.type.minValue ≤ Composite.AddMul.exact MAX_UINT64 1 0 ∧
              Composite.AddMul.exact MAX_UINT64 1 0 ≤ Kind.U64.type.maxValue)) ∧
        ((composite .U64 .AddMul MAX_UINT64 1 0).1 = false →
          (composite .U64 .AddMul MAX_UINT64 1 0).2 = Composite.AddMul.exact MAX_UINT64 1 0) ∧
        ∀ j : Kind, composite j .TriAdd 1 2 3 = (false, 6)) :=
  ⟨⟨by decide, by decide, by decide⟩,
    composite_false_iff_both_fit .U64 .AddMul MAX_UINT64 1 0 (by decide) (by decide)
      (by decide)⟩

/-- C7: the interface comment of the header promises FALSE whenever the stored
result equals the infinite-precision result.  On
`OcOverflowAddMulU32 (0xFFFFFFFF, 1, 0)` and on
`OcOverflowTriAddS64 (MIN_INT64, -1, 1)` the operands are of the kind, the
full expression is representable and is what the composite stores, and the
composite returns TRUE. -/
theorem composite_flag_true_on_exact_result :
    (UINT32.inRange 0xFFFFFFFF ∧ UINT32.inRange 1 ∧ UINT32.inRange 0 ∧
        UINT32.inRange (Composite.AddMul.exact 0xFFFFFFFF 1 0) ∧
        (OcOverflowAddMulU32 0xFFFFFFFF 1 0).2 = Composite.AddMul.exact 0xFFFFFFFF 1 0 ∧
        (OcOverflowAddMulU32 0xFFFFFFFF 1 0).1 = true) ∧
      (INT64.inRange MIN_INT64 ∧ INT64.inRange (-1) ∧ INT64.inRange 1 ∧
        INT64.inRange (Composite.TriAdd.exact MIN_INT64 (-1) 1) ∧
        (OcOverflowTriAddS64 MIN_INT64 (-1) 1).2 = Composite.TriAdd.exact MIN_INT64 (-1) 1 ∧
        (OcOverflowTriAddS64 MIN_INT64 (-1) 1).1 = true) := by
  decide

/-- C8 as stated fails: on `OcOverflowMulAddU32 (0xFFFF, 0x10001, 0)` it is not
the case that the stage-1 product leaves the 32-bit range and the composite
returns TRUE. -/
theorem mulAddU32_FFFF_10001_not_overflow :
    ¬ (¬ UINT32.inRange (0xFFFF * 0x10001) ∧
        (OcOverflowMulAddU32 0xFFFF 0x10001 0).1 = true ∧
        (OcOverflowMulAddU32 0xFFFF 0x10001 0).2 = (0xFFFF * 0x10001) % 2 ^ 32 + 0) := by
  decide

/-- C8, amended: on `OcOverflowMulAddU32 (0xFFFF, 0x10001, 0)` the stage-1
product `A*B = 0xFFFFFFFF` fits 32 bits, stage 1 and the composite return
FALSE, and the stored result equals the 32-bit product plus `C`, which is
`0xFFFFFFFF`. -/
theorem mulAddU32_FFFF_10001_exact :
    UINT32.inRange (0xFFFF * 0x10001) ∧
      OcOverflowMulU32 0xFFFF 0x10001 = (false, 0xFFFFFFFF) ∧
      (OcOverflowMulAddU32 0xFFFF 0x10001 0).1 = false ∧
      (OcOverflowMulAddU32 0xFFFF 0x10001 0).2 = (0xFFFF * 0x10001) % 2 ^ 32 + 0 ∧
      (OcOverflowMulAddU32 0xFFFF 0x10001 0).2 = 0xFFFFFFFF := by
  decide

/-! ## Native-width interfaces -/

/-- On a 64-bit target a native primitive is the explicit 64-bit one. -/
theorem nativePrimitive_eq_64 (t : Target) (h : t.cpu.nativeBits = 64) (signed : Bool)
    (op : PrimOp) (A B : Int) :
    nativePrimitive t signed op A B = primitive (kind64 signed) op A B := by
  obtain ⟨cpu, g⟩ := t
  cases cpu <;> simp [Cpu.nativeBits] at h <;>
    cases g <;> cases signed <;> cases op <;> rfl

/-- On a 32-bit target a native primitive is the explicit 32-bit one. -/
theorem nativePrimitive_eq_32 (t : Target) (h : t.cpu.nativeBits = 32) (signed : Bool)
    (op : PrimOp) (A B : Int) :
    nativePrimitive t signed op A B = primitive (kind32 signed) op A B := by
  obtain ⟨cpu, g⟩ := t
  cases cpu <;> simp [Cpu.nativeBits] at h <;>
    cases g <;> cases signed <;> cases op <;> rfl

/-- Every native composite is its two native primitive stages chained. -/
theorem nativeComposite_eq (t : Target) (signed : Bool) (c : Composite) (A B C : Int) :
    nativeComposite t signed c A B C =
      ((nativePrimitive t signed c.stage1 A B).1 ||
          (nativePrimitive t signed c.stage2 (nativePrimitive t signed c.stage1 A B).2 C).1,
        (nativePrimitive t signed c.stage2 (nativePrimitive t signed c.stage1 A B).2 C).2) := by
  cases signed <;> cases c <;> rfl

/-- C9: on a target whose native integer width is 64 bits, every native-width
operation (Add, Sub, Mul, TriAdd, TriMul, AddMul, MulAdd with suffix UN or SN)
returns the same flag and stores the same result as the explicit 64-bit
operation (suffix U64 or S64) for all operands; on a target whose native width
is 32 bits the same holds with the 32-bit operation (suffix U32 or S32). -/
theorem native_matches_fixed_width (t : Target) (signed : Bool) :
    (t.cpu.nativeBits = 64 →
        (∀ (op : PrimOp) (A B : Int),
            nativePrimitive t signed op A B = primitive (kind64 signed) op A B) ∧
          ∀ (c : Composite) (A B C : Int),
            nativeComposite t signed c A B C = composite (kind64 signed) c A B C) ∧
      (t.cpu.nativeBits = 32 →
        (∀ (op : PrimOp) (A B : Int),
            nativePrimitive t signed op A B = primitive (kind32 signed) op A B) ∧
          ∀ (c : Composite) (A B C : Int),
            nativeComposite t signed c A B C = composite (kind32 signed) c A B C) := by
  constructor
  · intro h
    refine ⟨nativePrimitive_eq_64 t h signed, fun c A B C => ?_⟩
    rw [nativeComposite_eq, composite_eq]
    simp only [nativePrimitive_eq_64 t h]
  · intro h
    refine ⟨nativePrimitive_eq_32 t h signed, fun c A B C => ?_⟩
    rw [nativeComposite_eq, composite_eq]
    simp only [nativePrimitive_eq_32 t h]

/-- Instance of C9: the unsigned operations on X64 with forwarding macros, and
the signed operations on IA32 with the type-generic checkers. -/
theorem native_matches_fixed_width_witness :
    (Cpu.X64.nativeBits = 64 ∧
        (∀ (op : PrimOp) (A B : Int),
            nativePrimitive ⟨.X64, false⟩ false op A B = primitive .U64 op A B) ∧
          ∀ (c : Composite) (A B C : Int),
            nativeComposite ⟨.X64, false⟩ false c A B C = composite .U64 c A B C) ∧
      (Cpu.IA32.nativeBits = 32 ∧
        (∀ (op : PrimOp) (A B : Int),
            nativePrimitive ⟨.IA32, true⟩ true op A B = primitive .S32 op A B) ∧
          ∀ (c : Composite) (A B C : Int),
            nativeComposite ⟨.IA32, true⟩ true c A B C = composite .S32 c A B C) :=
  ⟨⟨rfl, (native_matches_fixed_width ⟨.X64, false⟩ false).1 rfl⟩,
    ⟨rfl, (native_matches_fixed_width ⟨.IA32, true⟩ true).2 rfl⟩⟩

/-! ## Unsigned subtraction -/

/-- An unsigned subtraction on operands of the kind reports a borrow. -/
theorem unsigned_sub_flag (k : Kind) (A B : Int)
    (hk : k.signed = false) (hA : k.type.inRange A) (hB : k.type.inRange B) :
    (primitive k .Sub A B).1 = true ↔ A < B := by
  rw [← Bool.not_eq_false, primitive_flag_false_iff k .Sub A B hA hB]
  cases k <;> simp [Kind.signed, Kind.type, UINT32, INT32, UINT64, INT64] at hk <;>
    simp [Kind.type, UINT32, UINT64, IntType.inRange, IntType.minValue, IntType.maxValue,
      PrimOp.exact] at hA hB ⊢ <;>
    omega

/-- C10: for every unsigned subtraction (U32, U64) and all operands of the
kind, the operation computes `A - B`: it returns TRUE if and only if `A < B`
and stores `(A - B) mod 2^width`; consequently for `A ≠ B` exactly one of
`Sub (A, B)` and `Sub (B, A)` returns TRUE. -/
theorem unsigned_sub_flag_iff_lt (k : Kind) (A B : Int)
    (hk : k.signed = false) (hA : k.type.inRange A) (hB : k.type.inRange B) :
    ((primitive k .Sub A B).1 = true ↔ A < B) ∧
      (primitive k .Sub A B).2 = (A - B) % 2 ^ k.width ∧
      (A ≠ B →
        ((primitive k .Sub A B).1 = true ∧ (primitive k .Sub B A).1 = false) ∨
          ((primitive k .Sub A B).1 = false ∧ (primitive k .Sub B A).1 = true)) := by
  have hAB := unsigned_sub_flag k A B hk hA hB
  have hBA := unsigned_sub_flag k B A hk hB hA
  have hst := primitive_stored k .Sub A B hA hB
  rw [cast_unsigned k hk] at hst
  refine ⟨hAB, hst, fun hne => ?_⟩
  rcases lt_or_gt_of_ne hne with h | h
  · left
    refine ⟨hAB.2 h, ?_⟩
    rw [← Bool.not_eq_true, hBA]
    omega
  · right
    refine ⟨?_, hBA.2 h⟩
    rw [← Bool.not_eq_true, hAB]
    omega

/-- Instance of C10: `OcOverflowSubU64 (3, 5)` against `OcOverflowSubU64 (5, 3)`. -/
theorem unsigned_sub_flag_iff_lt_witness :
    (Kind.U64.signed = false ∧ Kind.U64.type.inRange 3 ∧ Kind.U64.type.inRange 5) ∧
      (((primitive .U64 .Sub 3 5).1 = true ↔ (3 : Int) < 5) ∧
        (primitive .U64 .Sub 3 5).2 = (3 - 5) % 2 ^ Kind.U64.width ∧
        ((3 : Int) ≠ 5 →
          ((primitive .U64 .Sub 3 5).1 = true ∧ (primitive .U64 .Sub 5 3).1 = false) ∨
            ((primitive .U64 .Sub 3 5).1 = false ∧ (primitive .U64 .Sub 5 3).1 = true))) :=
  ⟨⟨by decide, by decide, by decide⟩,
    unsigned_sub_flag_iff_lt .U64 3 5 (by decide) (by decide) (by decide)⟩

/-! ## Trivial multiplications and negation -/

/-- Zero and one are values of every kind. -/
theorem zero_one_inRange (k : Kind) : k.type.inRange 0 ∧ k.type.inRange 1 := by
  cases k <;> decide

/-- C11: for every multiplication primitive (U32, S32, U64, S64) and every
operand `X` of the kind, multiplying by zero in either position returns FALSE
and stores 0, and multiplying by one in either position returns FALSE and
stores `X`, whatever the magnitude of `X`. -/
theorem mul_by_zero_or_one (k : Kind) (X : Int) (hX : k.type.inRange X) :
    primitive k .Mul 0 X = (false, 0) ∧ primitive k .Mul X 0 = (false, 0) ∧
      primitive k .Mul 1 X = (false, X) ∧ primitive k .Mul X 1 = (false, X) := by
  obtain ⟨h0, h1⟩ := zero_one_inRange k
  have c0 := (cast_eq_self_iff k 0).2 h0
  have cX := (cast_eq_self_iff k X).2 hX
  rw [primitive_eq_of_inRange k .Mul 0 X h0 hX, primitive_eq_of_inRange k .Mul X 0 hX h0,
    primitive_eq_of_inRange k .Mul 1 X h1 hX, primitive_eq_of_inRange k .Mul X 1 hX h1]
  simp [PrimOp.exact, c0, cX]

/-- Instance of C11: the signed minimum `MIN_INT64`. -/
theorem mul_by_zero_or_one_witness :
    Kind.S64.type.inRange MIN_INT64 ∧
      (primitive .S64 .Mul 0 MIN_INT64 = (false, 0) ∧
        primitive .S64 .Mul MIN_INT64 0 = (false, 0) ∧
        primitive .S64 .Mul 1 MIN_INT64 = (false, MIN_INT64) ∧
        primitive .S64 .Mul MIN_INT64 1 = (false, MIN_INT64)) :=
  ⟨by decide, mul_by_zero_or_one .S64 MIN_INT64 (by decide)⟩

/-- C12: for every signed subtraction (S32, S64) and every `A` of the kind,
`Sub (0, A)` returns TRUE if and only if `A` is the minimum value of the type
(`MIN_INT32`, `MIN_INT64`); in that case the stored result is that same
minimum, and otherwise the stored result is exactly `-A`. -/
theorem signed_negate_flag_iff_min (k : Kind) (A : Int)
    (hk : k.signed = true) (hA : k.type.inRange A) :
    ((primitive k .Sub 0 A).1 = true ↔ A = k.type.minValue) ∧
      (A = k.type.minValue → (primitive k .Sub 0 A).2 = k.type.minValue) ∧
      (A ≠ k.type.minValue → (primitive k .Sub 0 A).2 = -A) ∧
      Kind.S32.type.minValue = MIN_INT32 ∧ Kind.S64.type.minValue = MIN_INT64 := by
  refine ⟨?_, ?_, ?_, by decide, by decide⟩ <;>
    rw [primitive_eq_of_inRange k .Sub 0 A (zero_one_inRange k).1 hA] <;>
    cases k <;> simp [Kind.signed, Kind.type, UINT32, INT32, UINT64, INT64] at hk <;>
    simp [Kind.type, INT32, INT64, IntType.inRange, IntType.minValue, IntType.maxValue,
      IntType.cast, PrimOp.exact] at hA ⊢ <;>
    omega

/-- Instance of C12: `OcOverflowSubS32 (0, MIN_INT32)`. -/
theorem signed_negate_flag_iff_min_witness :
    (Kind.S32.signed = true ∧ Kind.S32.type.inRange MIN_INT32) ∧
      (((primitive .S32 .Sub 0 MIN_INT32).1 = true ↔ MIN_INT32 = Kind.S32.type.minValue) ∧
        (MIN_INT32 = Kind.S32.type.minValue →
          (primitive .S32 .Sub 0 MIN_INT32).2 = Kind.S32.type.minValue) ∧
        (MIN_INT32 ≠ Kind.S32.type.minValue → (primitive .S32 .Sub 0 MIN_INT32).2 = -MIN_INT32) ∧
        Kind.S32.type.minValue = MIN_INT32 ∧ Kind.S64.type.minValue = MIN_INT64) :=
  ⟨⟨by decide, by decide⟩, signed_negate_flag_iff_min .S32 MIN_INT32 (by decide) (by decide)⟩

/-! ## Pointer alignment checking -/

/-- The values of `UINTN` are the naturals below `2^nativeBits`. -/
theorem UINTN_inRange_iff (cpu : Cpu) (x : Int) :
    (UINTN cpu).inRange x ↔ 0 ≤ x ∧ x < 2 ^ cpu.nativeBits := by
  simp only [UINTN, IntType.inRange, IntType.minValue, IntType.maxValue]
  constructor <;> rintro ⟨h1, h2⟩ <;> refine ⟨h1, ?_⟩ <;>
    simp only [Bool.false_eq_true, if_false] at * <;> omega

/-- A conversion to `UINTN` leaves a value of `UINTN` unchanged. -/
theorem UINTN_cast_of_inRange (cpu : Cpu) (x : Int) (h : (UINTN cpu).inRange x) :
    (UINTN cpu).cast x = x := by
  obtain ⟨h0, h1⟩ := (UINTN_inRange_iff cpu x).1 h
  simp only [UINTN, IntType.cast, Bool.false_and, Bool.false_eq_true, if_false]
  exact Int.emod_eq_of_lt h0 h1

/-- The AND with the mask `2^m - 1` keeps the residue modulo `2^m`. -/
theorem andUINTN_mask (P : Int) (hP : 0 ≤ P) (m : Nat) :
    andUINTN P (2 ^ m - 1) = P % 2 ^ m := by
  obtain ⟨p, rfl⟩ := Int.eq_ofNat_of_zero_le hP
  have hmask : ((2 : Int) ^ m - 1).toNat = 2 ^ m - 1 := by
    have h : (1 : Nat) ≤ 2 ^ m := Nat.one_le_two_pow
    have : ((2 : Int) ^ m - 1) = ((2 ^ m - 1 : Nat) : Int) := by
      push_cast [h]
      rfl
    rw [this, Int.toNat_ofNat]
  simp only [andUINTN, Int.toNat_ofNat, hmask, Nat.and_pow_two_sub_one_eq_mod]
  push_cast
  rfl

/-- A value of `UINTN` passes the check against the mask `2^m - 1` exactly when
it is a multiple of `2^m`. -/
theorem masked_zero_iff_dvd (cpu : Cpu) (P : Int) (hP : (UINTN cpu).inRange P) (m : Nat) :
    (0 == andUINTN ((UINTN cpu).cast P) (2 ^ m - 1)) = true ↔ (2 : Int) ^ m ∣ P := by
  rw [UINTN_cast_of_inRange cpu P hP, andUINTN_mask P ((UINTN_inRange_iff cpu P).1 hP).1,
    beq_iff_eq, Int.dvd_iff_emod_eq_zero]
  exact eq_comm

/-- A natural has residue zero modulo `2^j` exactly when its `j` low-order bits
are zero. -/
theorem mod_two_pow_eq_zero_iff_testBit (x j : Nat) :
    x % 2 ^ j = 0 ↔ ∀ i, i < j → x.testBit i = false := by
  constructor
  · intro h i hi
    have hb := Nat.testBit_mod_two_pow x j i
    rw [h] at hb
    simpa [hi] using hb.symm
  · intro h
    apply Nat.eq_of_testBit_eq
    intro i
    rw [Nat.testBit_mod_two_pow]
    by_cases hi : i < j
    · simp [hi, h i hi]
    · simp [hi]

/-- The mask of the type-derived checks is `min (size, sizeof (UINTN)) - 1`. -/
theorem typeAlignMask_eq (cpu : Cpu) (s : Nat) (hs : 0 < s) :
    typeAlignMask cpu s = ((min s (sizeofUINTN cpu) : Nat) : Int) - 1 := by
  cases cpu <;>
    simp only [typeAlignMask, sizeofUINTN, Cpu.nativeBits, UINTN, IntType.cast] <;>
    split <;> simp <;> omega

/-- The size of `UINTN` is `2^2` or `2^3` bytes. -/
theorem sizeofUINTN_eq_pow (cpu : Cpu) :
    ∃ r, sizeofUINTN cpu = 2 ^ r := by
  cases cpu
  · exact ⟨3, rfl⟩
  · exact ⟨3, rfl⟩
  · exact ⟨2, rfl⟩
  · exact ⟨2, rfl⟩

/-- A type-derived check of a value of `UINTN`, for a size whose capped value
is a power of two, tests divisibility by the capped size. -/
theorem type_check_iff_dvd (cpu : Cpu) (s : Nat) (P : Int) (hP : (UINTN cpu).inRange P)
    (hs : 0 < s) (m : Nat) (hm : min s (sizeofUINTN cpu) = 2 ^ m) :
    (0 == andUINTN ((UINTN cpu).cast P) (typeAlignMask cpu s)) = true ↔
      ((min s (sizeofUINTN cpu) : Nat) : Int) ∣ P := by
  rw [typeAlignMask_eq cpu s hs, hm]
  push_cast
  exact masked_zero_iff_dvd cpu P hP m

/-- The smaller of two powers of two is a power of two. -/
theorem min_two_pow (j r : Nat) : min (2 ^ j) (2 ^ r) = 2 ^ min j r := by
  rcases le_total j r with h | h
  · rw [min_eq_left h, min_eq_left (Nat.pow_le_pow_right (by decide) h)]
  · rw [min_eq_right h, min_eq_right (Nat.pow_le_pow_right (by decide) h)]

/-- For an argument that binds at least as tightly as minus, the text
`Align-1` has the value of the argument less one. -/
theorem minusOne_eval_of_tight (e : CExpr) (ht : e.tight = true) :
    e.minusOne.eval = e.eval - 1 := by
  cases e with
  | const v => rfl
  | paren e => rfl
  | bin op l r =>
    simp only [CExpr.tight] at ht
    simp [CExpr.minusOne, ht, CExpr.eval, BinOp.eval]
  | cond c t f => simp [CExpr.tight] at ht

/-- For an argument of `OC_POT_ALIGNED` that binds at least as tightly as
minus (a constant, an identifier, a parenthesised expression) and whose value
is `2^j` representable as `UINTN`, and an address `P` representable as
`UINTN`, the macro is true if and only if `P` is a multiple of `2^j`, that is
exactly when bits `0` to `j - 1` of `P` are all zero. -/
theorem pot_aligned_iff_multiple_of_tight (cpu : Cpu) (Align : CExpr) (j : Nat) (P : Int)
    (ht : Align.tight = true) (hv : Align.eval = 2 ^ j)
    (hP : (UINTN cpu).inRange P) (hAlign : (UINTN cpu).inRange (2 ^ j)) :
    (OC_POT_ALIGNED cpu Align P = true ↔ (2 : Int) ^ j ∣ P) ∧
      (OC_POT_ALIGNED cpu Align P = true ↔ ∀ i, i < j → P.toNat.testBit i = false) := by
  have hmask : (UINTN cpu).inRange (2 ^ j - 1) := by
    have h1 : (1 : Int) ≤ 2 ^ j := one_le_pow₀ (by decide)
    have h2 := (UINTN_inRange_iff cpu _).1 hAlign
    exact (UINTN_inRange_iff cpu _).2 ⟨by omega, by omega⟩
  have hdvd : OC_POT_ALIGNED cpu Align P = true ↔ (2 : Int) ^ j ∣ P := by
    unfold OC_POT_ALIGNED
    rw [minusOne_eval_of_tight Align ht, hv, UINTN_cast_of_inRange cpu _ hmask]
    exact masked_zero_iff_dvd cpu P hP j
  refine ⟨hdvd, hdvd.trans ?_⟩
  obtain ⟨p, rfl⟩ := Int.eq_ofNat_of_zero_le ((UINTN_inRange_iff cpu P).1 hP).1
  rw [← mod_two_pow_eq_zero_iff_testBit, Int.toNat_ofNat, ← Nat.dvd_iff_mod_eq_zero]
  exact_mod_cast Iff.rfl

/-- C13: the claim asks `OC_POT_ALIGNED (Align, P)` to be true exactly when `P`
is a multiple of the power of two `Align`.  On `OC_POT_ALIGNED (1 << 4, 0x1007)`
the alignment is `16`, alignment and address are representable as `UINTN`, the
address is not a multiple of 16 and its bit 0 is set, yet the macro, whose body
reads `1 << 4-1` and so masks with 8, is true; likewise
`OC_POT_ALIGNED (1 ? 16 : 8, 0x1008)` masks with 16 and is true although
`0x1008` is not a multiple of 16. -/
theorem pot_aligned_unparenthesised_argument :
    ((CExpr.bin .shl (.const 1) (.const 4)).eval = 2 ^ 4 ∧
        (UINTN .X64).inRange (2 ^ 4) ∧ (UINTN .X64).inRange 0x1007 ∧
        ¬ ((2 : Int) ^ 4 ∣ 0x1007) ∧ (0x1007 : Int).toNat.testBit 0 = true ∧
        (CExpr.bin .shl (.const 1) (.const 4)).minusOne.eval = 8 ∧
        OC_POT_ALIGNED .X64 (.bin .shl (.const 1) (.const 4)) 0x1007 = true) ∧
      ((CExpr.cond (.const 1) (.const 16) (.const 8)).eval = 2 ^ 4 ∧
        (UINTN .IA32).inRange (2 ^ 4) ∧ (UINTN .IA32).inRange 0x1008 ∧
        ¬ ((2 : Int) ^ 4 ∣ 0x1008) ∧
        (CExpr.cond (.const 1) (.const 16) (.const 8)).minusOne.eval = 16 ∧
        OC_POT_ALIGNED .IA32 (.cond (.const 1) (.const 16) (.const 8)) 0x1008 = true) := by
  decide

/-- C14: for `OC_TYPE_ALIGNED (Type, Ptr)` and `OC_ALIGNED (TypedPtr)`, with `s`
the size of the type and `n` the size of `UINTN`, the mask used is
`min (s, n) - 1`, so when `s` is a power of two the predicate is true if and
only if the address is a multiple of `min (s, n)`; in particular a type larger
than the native word only requires native-word alignment. -/
theorem type_aligned_iff_multiple (cpu : Cpu) (s : Nat) (P : Int)
    (hP : (UINTN cpu).inRange P) (hs : 0 < s) :
    typeAlignMask cpu s = ((min s (sizeofUINTN cpu) : Nat) : Int) - 1 ∧
      ((∃ j, s = 2 ^ j) →
        (OC_TYPE_ALIGNED cpu s P = true ↔ ((min s (sizeofUINTN cpu) : Nat) : Int) ∣ P) ∧
          (OC_ALIGNED cpu s P = true ↔ ((min s (sizeofUINTN cpu) : Nat) : Int) ∣ P)) ∧
      (sizeofUINTN cpu < s →
        (OC_TYPE_ALIGNED cpu s P = true ↔ (sizeofUINTN cpu : Int) ∣ P) ∧
          (OC_ALIGNED cpu s P = true ↔ (sizeofUINTN cpu : Int) ∣ P)) := by
  obtain ⟨r, hr⟩ := sizeofUINTN_eq_pow cpu
  refine ⟨typeAlignMask_eq cpu s hs, ?_, ?_⟩
  · rintro ⟨j, rfl⟩
    have hm : min (2 ^ j) (sizeofUINTN cpu) = 2 ^ min j r := by rw [hr, min_two_pow]
    exact ⟨type_check_iff_dvd cpu _ P hP hs _ hm, type_check_iff_dvd cpu _ P hP hs _ hm⟩
  · intro hlt
    have hm : min s (sizeofUINTN cpu) = 2 ^ r := by rw [min_eq_right (le_of_lt hlt), hr]
    have h := type_check_iff_dvd cpu s P hP hs r hm
    rw [min_eq_right (le_of_lt hlt)] at h
    exact ⟨h, h⟩

/-- Instance of C14: a 16-byte type at the address `0x1008` on X64. -/
theorem type_aligned_iff_multiple_witness :
    ((UINTN .X64).inRange 0x1008 ∧ 0 < 16) ∧
      (typeAlignMask .X64 16 = ((min 16 (sizeofUINTN .X64) : Nat) : Int) - 1 ∧
        ((∃ j, 16 = 2 ^ j) →
          (OC_TYPE_ALIGNED .X64 16 0x1008 = true ↔
              ((min 16 (sizeofUINTN .X64) : Nat) : Int) ∣ 0x1008) ∧
            (OC_ALIGNED .X64 16 0x1008 = true ↔
              ((min 16 (sizeofUINTN .X64) : Nat) : Int) ∣ 0x1008)) ∧
        (sizeofUINTN .X64 < 16 →
          (OC_TYPE_ALIGNED .X64 16 0x1008 = true ↔ (sizeofUINTN .X64 : Int) ∣ 0x1008) ∧
            (OC_ALIGNED .X64 16 0x1008 = true ↔ (sizeofUINTN .X64 : Int) ∣ 0x1008))) :=
  ⟨⟨by decide, by decide⟩, type_aligned_iff_multiple .X64 16 0x1008 (by decide) (by decide)⟩

/-! ## Behaviour of the composite flag -/

/-- C15: there are operands of a composite, here `OcOverflowTriMulU32` with
`A = 0x10000`, `B = 0x10000`, `C = 0`, for which stage 1 overflows, stage 2 on
the wrapped intermediate reports no overflow and is exact, the stored result
is the exact infinite-precision value of the full expression, and the
composite returns TRUE. -/
theorem conservative_flag_exists :
    ∃ A B C : Int, UINT32.inRange A ∧ UINT32.inRange B ∧ UINT32.inRange C ∧
      ¬ UINT32.inRange (A * B) ∧ (OcOverflowMulU32 A B).1 = true ∧
      OcOverflowMulU32 (OcOverflowMulU32 A B).2 C = (false, (OcOverflowMulU32 A B).2 * C) ∧
      (OcOverflowTriMulU32 A B C).2 = A * B * C ∧
      (OcOverflowTriMulU32 A B C).1 = true :=
  ⟨0x10000, 0x10000, 0, by decide⟩

/-- The values of an unsigned kind are the naturals below `2^width`. -/
theorem unsigned_inRange_iff (k : Kind) (hk : k.signed = false) (x : Int) :
    k.type.inRange x ↔ 0 ≤ x ∧ x < 2 ^ k.width := by
  cases k <;> simp [Kind.signed, Kind.type, UINT32, INT32, UINT64, INT64] at hk <;>
    simp [Kind.type, Kind.width, UINT32, UINT64, IntType.inRange, IntType.minValue,
      IntType.maxValue] <;>
    omega

/-- C16: for the unsigned composites TriAdd and MulAdd (U32, U64) the flag is
exact: for all operands of the kind the composite returns TRUE if and only if
the infinite-precision value of `A+B+C` (respectively `A*B+C`) is at least
`2^width`. -/
theorem unsigned_triAdd_mulAdd_flag_exact (k : Kind) (A B C : Int)
    (hk : k.signed = false) (hA : k.type.inRange A) (hB : k.type.inRange B)
    (hC : k.type.inRange C) :
    ((composite k .TriAdd A B C).1 = true ↔ 2 ^ k.width ≤ A + B + C) ∧
      ((composite k .MulAdd A B C).1 = true ↔ 2 ^ k.width ≤ A * B + C) := by
  have hT := composite_flag_false_iff k .TriAdd A B C hA hB hC
  have hM := composite_flag_false_iff k .MulAdd A B C hA hB hC
  simp only [unsigned_inRange_iff k hk, Composite.stage1, Composite.exact, PrimOp.exact]
    at hA hB hC hT hM
  have hAB : 0 ≤ A * B := mul_nonneg hA.1 hB.1
  generalize (2 : Int) ^ k.width = M at *
  generalize A * B = AB at *
  constructor
  · rw [← Bool.not_eq_false, hT]
    omega
  · rw [← Bool.not_eq_false, hM]
    omega

/-- Instance of C16: `OcOverflowMulAddU32 (0x10000, 0xFFFF, 0x10000)`. -/
theorem unsigned_triAdd_mulAdd_flag_exact_witness :
    (Kind.U32.signed = false ∧ Kind.U32.type.inRange 0x10000 ∧
        Kind.U32.type.inRange 0xFFFF ∧ Kind.U32.type.inRange 0x10000) ∧
      (((composite .U32 .TriAdd 0x10000 0xFFFF 0x10000).1 = true ↔
          2 ^ Kind.U32.width ≤ (0x10000 : Int) + 0xFFFF + 0x10000) ∧
        ((composite .U32 .MulAdd 0x10000 0xFFFF 0x10000).1 = true ↔
          2 ^ Kind.U32.width ≤ (0x10000 : Int) * 0xFFFF + 0x10000)) :=
  ⟨⟨by decide, by decide, by decide, by decide⟩,
    unsigned_triAdd_mulAdd_flag_exact .U32 0x10000 0xFFFF 0x10000 (by decide) (by decide)
      (by decide) (by decide)⟩

/-- C17: the flag of the signed triple addition depends on the operand order
although its stored result does not: for all operands of the kind
`OcOverflowTriAddS32 (A, B, C)` and `OcOverflowTriAddS32 (A, C, B)` store the
same result, while `OcOverflowTriAddS32 (MAX_INT32, 1, -1)` returns TRUE and
`OcOverflowTriAddS32 (MAX_INT32, -1, 1)` returns FALSE. -/
theorem triAddS32_flag_depends_on_order (A B C : Int)
    (hA : INT32.inRange A) (hB : INT32.inRange B) (hC : INT32.inRange C) :
    (OcOverflowTriAddS32 A B C).2 = (OcOverflowTriAddS32 A C B).2 ∧
      (OcOverflowTriAddS32 MAX_INT32 1 (-1)).1 = true ∧
      (OcOverflowTriAddS32 MAX_INT32 (-1) 1).1 = false := by
  refine ⟨?_, by decide, by decide⟩
  have h1 := composite_stored .S32 .TriAdd A B C hA hB hC
  have h2 := composite_stored .S32 .TriAdd A C B hA hC hB
  have he : Composite.TriAdd.exact A C B = Composite.TriAdd.exact A B C := by
    simp only [Composite.exact]
    omega
  rw [he] at h2
  exact h1.trans h2.symm

/-- Instance of C17: the operands `MAX_INT32`, `1`, `-1`. -/
theorem triAddS32_flag_depends_on_order_witness :
    (INT32.inRange MAX_INT32 ∧ INT32.inRange 1 ∧ INT32.inRange (-1)) ∧
      ((OcOverflowTriAddS32 MAX_INT32 1 (-1)).2 = (OcOverflowTriAddS32 MAX_INT32 (-1) 1).2 ∧
        (OcOverflowTriAddS32 MAX_INT32 1 (-1)).1 = true ∧
        (OcOverflowTriAddS32 MAX_INT32 (-1) 1).1 = false) :=
  ⟨⟨by decide, by decide, by decide⟩,
    triAddS32_flag_depends_on_order MAX_INT32 1 (-1) (by decide) (by decide) (by decide)⟩

/-! ## Algebraic relations -/

/-- C18: checked addition and checked multiplication are commutative in both
outputs for every kind: for all `A`, `B`, `Add (A, B)` returns the same flag
and stores the same result as `Add (B, A)`, and likewise `Mul (A, B)` and
`Mul (B, A)`. -/
theorem add_mul_commutative (k : Kind) (A B : Int) :
    primitive k .Add A B = primitive k .Add B A ∧
      primitive k .Mul A B = primitive k .Mul B A := by
  constructor
  · rw [primitive_eq k .Add A B, primitive_eq k .Add B A]
    simp only [PrimOp.exact, add_comm]
  · rw [primitive_eq k .Mul A B, primitive_eq k .Mul B A]
    simp only [PrimOp.exact, mul_comm]

/-- A second stage with the neutral element of its operation returns FALSE and
stores the intermediate unchanged. -/
theorem stage2_neutral (k : Kind) (op : PrimOp) (T c : Int) (hT : k.type.inRange T)
    (hc : k.type.inRange c) (hn : op.exact T c = T) :
    primitive k op T c = (false, T) := by
  rw [primitive_eq_of_inRange k op T c hT hc, hn, (cast_eq_self_iff k T).2 hT]
  simp

/-- C19: a composite whose third operand is the neutral element of its second
stage degenerates to its first-stage primitive: for every kind and all `A`,
`B`, `TriAdd (A, B, 0)` and `AddMul (A, B, 1)` return the same flag and store
the same result as `Add (A, B)`, and `TriMul (A, B, 1)` and `MulAdd (A, B, 0)`
the same as `Mul (A, B)`. -/
theorem composite_neutral_third_operand (k : Kind) (A B : Int) :
    composite k .TriAdd A B 0 = primitive k .Add A B ∧
      composite k .AddMul A B 1 = primitive k .Add A B ∧
      composite k .TriMul A B 1 = primitive k .Mul A B ∧
      composite k .MulAdd A B 0 = primitive k .Mul A B := by
  obtain ⟨h0, h1⟩ := zero_one_inRange k
  have hAdd := primitive_stored_inRange k .Add A B
  have hMul := primitive_stored_inRange k .Mul A B
  refine ⟨?_, ?_, ?_, ?_⟩ <;> rw [composite_eq] <;>
    simp only [Composite.stage1, Composite.stage2]
  · rw [stage2_neutral k .Add _ 0 hAdd h0 (by simp [PrimOp.exact])]
    simp
  · rw [stage2_neutral k .Mul _ 1 hAdd h1 (by simp [PrimOp.exact])]
    simp
  · rw [stage2_neutral k .Mul _ 1 hMul h1 (by simp [PrimOp.exact])]
    simp
  · rw [stage2_neutral k .Add _ 0 hMul h0 (by simp [PrimOp.exact])]
    simp

end OcGuardLib
